import Mathlib

/-!
Verification of the cc-switch failover proxy and usage-script sandbox.

This file gives a shallow embedding, in Lean 4, of the Rust sources
`src-tauri/src/proxy.rs`, `src-tauri/src/usage_script.rs` and
`src-tauri/src/provider.rs`, and proves (or refutes) the frozen claims
about them.  Pure Rust functions become Lean functions; the stateful
proxy handler becomes a function from its inputs (request, registry,
retry policy, an oracle giving the outcome of each upstream attempt) to
its result together with the trace of events (attempts, sleeps) it
produces; file-system writes performed by the mode-switch controller
become updates of an explicit `LiveState` record.
-/

/-! ## Generic helpers over character lists -/

/-- Substring test: does `pat` occur (contiguously) anywhere in the list?
Models Rust `str::contains` for a literal pattern. -/
def containsSub (pat : List Char) : List Char → Bool
  | [] => pat.isPrefixOf []
  | c :: s => pat.isPrefixOf (c :: s) || containsSub pat s

/-- Strip all trailing `/` characters.  Models Rust `str::trim_end_matches('/')`. -/
def trimTrailingSlash (s : String) : String :=
  String.mk ((s.data.reverse.dropWhile (fun c => c == '/')).reverse)

/-- Character-wise lowercasing, modelling Rust `str::to_lowercase`. -/
def lowerStr (s : String) : String :=
  String.mk (s.data.map Char.toLower)

/-! ## JSON values (`serde_json::Value`) -/

/-- Shallow model of `serde_json::Value`.  Objects are association lists
(serde maps have unique keys; lookup takes the first binding).  Numbers
are collapsed to `Int`: no claim inspects a numeric value, only whether
a field *is* a number. -/
inductive JValue where
  | null : JValue
  | bool (b : Bool) : JValue
  | num (n : Int) : JValue
  | str (s : String) : JValue
  | arr (xs : List JValue) : JValue
  | obj (fields : List (String × JValue)) : JValue

/-- Models `Value::is_null`. -/
def JValue.isNull : JValue → Bool
  | .null => true
  | _ => false

/-- Models `Value::is_boolean`. -/
def JValue.isBoolean : JValue → Bool
  | .bool _ => true
  | _ => false

/-- Models `Value::is_number`. -/
def JValue.isNumber : JValue → Bool
  | .num _ => true
  | _ => false

/-- Models `Value::is_string`. -/
def JValue.isString : JValue → Bool
  | .str _ => true
  | _ => false

/-- Models `Value::as_object` (returning the field list). -/
def JValue.asObject : JValue → Option (List (String × JValue))
  | .obj fs => some fs
  | _ => none

/-- Models `Value::as_array`. -/
def JValue.asArray : JValue → Option (List JValue)
  | .arr xs => some xs
  | _ => none

/-- Models `Value::as_str`. -/
def JValue.asStr : JValue → Option String
  | .str s => some s
  | _ => none

/-- Field lookup in an object's field list (serde `Map::get`). -/
def lookupField (fs : List (String × JValue)) (k : String) : Option JValue :=
  (fs.find? (fun p => p.1 = k)).map (fun p => p.2)

/-- Models `Value::get(key)`: field lookup on objects, `None` otherwise. -/
def JValue.getKey (v : JValue) (k : String) : Option JValue :=
  match v with
  | .obj fs => lookupField fs k
  | _ => none

/-- Models serde `Map::contains_key`. -/
def containsKeyF (fs : List (String × JValue)) (k : String) : Bool :=
  (lookupField fs k).isSome

/-- Models indexing `value[key]` on an object (missing keys yield `Null`). -/
def jIndex (fs : List (String × JValue)) (k : String) : JValue :=
  (lookupField fs k).getD .null

/-- Models serde `Map::insert`: replace the value of an existing key in
place, otherwise append the binding. -/
def objSet (fs : List (String × JValue)) (k : String) (v : JValue) :
    List (String × JValue) :=
  if fs.any (fun p => p.1 = k) then
    fs.map (fun p => if p.1 = k then (p.1, v) else p)
  else fs ++ [(k, v)]

/-! ## Provider model (`provider.rs`) -/

/-- The two downstream client kinds (`app_config::AppType`). -/
inductive AppType where
  | Claude : AppType
  | Codex : AppType
deriving DecidableEq

/-- Provider profile (`provider.rs::Provider`).  `meta` and the display
fields irrelevant to the claims are kept only as far as the proxy code
reads them; `proxy_enabled` is the flag `proxy.rs` reads on each
provider. -/
structure Provider where
  id : String
  name : String
  settings_config : JValue
  created_at : Option Int := none
  sort_index : Option Nat := none
  proxy_enabled : Option Bool := none

/-- Provider registry for one client kind (`provider.rs::ProviderManager`).
The Rust `HashMap<String, Provider>` becomes an association list; its
order stands for the (arbitrary) iteration order of the map. -/
structure ProviderManager where
  providers : List (String × Provider)
  current : String

/-- The two registries held by the application config (`get_manager`). -/
structure AppConfig where
  claude : ProviderManager
  codex : ProviderManager

/-- Models `config.get_manager(app_type)`. -/
def getManager (cfg : AppConfig) : AppType → ProviderManager
  | .Claude => cfg.claude
  | .Codex => cfg.codex

/-! ## Client-kind detection (`proxy.rs::detect_app_type_from_user_agent`) -/

/-- If the `User-Agent` value contains `"claude"` (case-insensitively),
the request is from the Claude client; otherwise (including a missing
header) it is Codex. -/
def detect_app_type_from_user_agent (ua : Option String) : AppType :=
  match ua with
  | some s => if containsSub "claude".data (lowerStr s).data then AppType.Claude else AppType.Codex
  | none => AppType.Codex

/-! ## Credential extraction (`proxy.rs::extract_provider_credentials`)

The Codex branch extracts `base_url` from the embedded TOML text with the
regex `base_url\s*=\s*["']([^"']+)["']` (leftmost match).  The scanner
below implements exactly that pattern: the literal token, optional
whitespace around `=`, an opening quote (double or single), a non-empty
run of non-quote characters, and a closing quote (either kind).  The
regex crate is Unicode-aware by default, so `\s` is the Unicode
`White_Space` class. -/

/-- The regex class `\s`: the Unicode `White_Space` property
(U+0009–U+000D, space, NEL, NBSP, Ogham space, U+2000–U+200A, the line
and paragraph separators, narrow/medium spaces, ideographic space). -/
def isWs (c : Char) : Bool :=
  c == ' ' || c == '\t' || c == '\n' || c == '\r' || c == '\x0b' || c == '\x0c'
  || c.toNat == 0x85 || c.toNat == 0xA0 || c.toNat == 0x1680
  || (decide (0x2000 ≤ c.toNat) && decide (c.toNat ≤ 0x200A))
  || c.toNat == 0x2028 || c.toNat == 0x2029 || c.toNat == 0x202F
  || c.toNat == 0x205F || c.toNat == 0x3000

/-- The regex character class `["']`. -/
def quoteChar (c : Char) : Bool :=
  c == '"' || c == '\''

/-- Match `\s*=\s*["']([^"']+)["']` at the start of `cs` (the text just
after a `base_url` token), returning the captured group: skip whitespace,
require `=`, skip whitespace, require an opening quote, capture the
non-empty longest run of non-quote characters, require a closing
quote. -/
def matchAfterToken (cs : List Char) : Option String :=
  if ((cs.dropWhile isWs).head? = some '=') then
    match (((cs.dropWhile isWs).tail).dropWhile isWs).head? with
    | some q =>
      if quoteChar q then
        if (((((cs.dropWhile isWs).tail).dropWhile isWs).tail).takeWhile
            (fun c => !quoteChar c)).isEmpty then none
        else if (((((cs.dropWhile isWs).tail).dropWhile isWs).tail).dropWhile
            (fun c => !quoteChar c)).isEmpty then none
        else some (String.mk (((((cs.dropWhile isWs).tail).dropWhile isWs).tail).takeWhile
            (fun c => !quoteChar c)))
      else none
    | none => none
  else none

/-- Try the whole regex at the start of `cs`. -/
def matchAt (cs : List Char) : Option String :=
  if "base_url".data.isPrefixOf cs then matchAfterToken (cs.drop 8) else none

/-- Leftmost match of the regex over the text: first position wins. -/
def findFirstBaseUrl : List Char → Option String
  | [] => none
  | c :: s =>
    match matchAt (c :: s) with
    | some v => some v
    | none => findFirstBaseUrl s

/-- Models `extract_provider_credentials`: map a provider and client kind
to `(api_key, base_url)` or the error strings of the source. -/
def extract_provider_credentials (p : Provider) (t : AppType) :
    Except String (String × String) :=
  match t with
  | .Claude =>
    match (p.settings_config.getKey "env").bind JValue.asObject with
    | none => .error "配置格式错误: 缺少 env"
    | some env =>
      match (lookupField env "ANTHROPIC_AUTH_TOKEN").bind JValue.asStr with
      | none => .error "缺少 ANTHROPIC_AUTH_TOKEN"
      | some apiKey =>
        match (lookupField env "ANTHROPIC_BASE_URL").bind JValue.asStr with
        | none => .error "缺少 ANTHROPIC_BASE_URL"
        | some baseUrl => .ok (apiKey, baseUrl)
  | .Codex =>
    match (p.settings_config.getKey "auth").bind JValue.asObject with
    | none => .error "配置格式错误: 缺少 auth"
    | some auth =>
      match (lookupField auth "OPENAI_API_KEY").bind JValue.asStr with
      | none => .error "缺少 OPENAI_API_KEY"
      | some apiKey =>
        let configToml := ((p.settings_config.getKey "config").bind JValue.asStr).getD ""
        if containsSub "base_url".data configToml.data then
          match findFirstBaseUrl configToml.data with
          | some baseUrl => .ok (apiKey, baseUrl)
          | none => .error "config.toml 中 base_url 格式错误"
        else .error "config.toml 中缺少 base_url 配置"

/-! ## Provider ordering (`proxy.rs` lines 151-164 and 503-516) -/

/-- The comparator passed to `sort_by` in both `get_enabled_proxy_providers`
and `switch_to_write_mode`: compare explicit `sort_index` values when both
are present, put present before absent, and fall back to `created_at`
only when both `sort_index` are absent (equal when either timestamp is
missing). -/
def cmpProvider (a b : Provider) : Ordering :=
  match a.sort_index, b.sort_index with
  | some ia, some ib => compare ia ib
  | some _, none => .lt
  | none, some _ => .gt
  | none, none =>
    match a.created_at, b.created_at with
    | some ta, some tb => compare ta tb
    | _, _ => .eq

/-- One step of stable insertion sort, as Rust's slice sort performs it:
the new element `x` shifts left past the elements strictly greater than
it, scanning from the right, and stops at the first element comparing
less-or-equal.  Functionally: `x` lands in front of `h :: t` exactly
when every element of `h :: t` compares Greater to it; otherwise `h`
stays put and `x` is inserted into `t`.  In particular an element never
moves past one comparing Equal — the stable-sort contract `sort_by`
gives (Rust leaves the order unspecified for comparators that are not
total orders; this is the insertion-sort behaviour it exhibits and the
only guarantee its documentation keeps). -/
def insertSortedBy (cmp : α → α → Ordering) (x : α) : List α → List α
  | [] => [x]
  | h :: t =>
    if cmp h x = .gt ∧ ∀ y ∈ t, cmp y x = .gt then x :: h :: t
    else h :: insertSortedBy cmp x t

/-- Stable sort by a comparator (insertion sort), modelling `Vec::sort_by`. -/
def sortByOrd (cmp : α → α → Ordering) (l : List α) : List α :=
  l.foldl (fun acc x => insertSortedBy cmp x acc) []

/-- The provider ordering used by the failover router. -/
def sortProviders (l : List Provider) : List Provider :=
  sortByOrd cmpProvider l

/-- Models `get_enabled_proxy_providers`: values of the registry, filtered
to `proxy_enabled == Some(true)`, then sorted. -/
def get_enabled_proxy_providers (cfg : AppConfig) (t : AppType) : List Provider :=
  sortProviders (((getManager cfg t).providers.map Prod.snd).filter
    (fun p => p.proxy_enabled.getD false))

/-! ## Header rewriting (`proxy.rs` lines 42-52, 170-172, 257-268) -/

/-- The fixed deny-list of hop-by-hop headers. -/
def HOP_BY_HOP_HEADERS : List String :=
  ["connection", "keep-alive", "proxy-authenticate", "proxy-authorization",
   "te", "trailers", "transfer-encoding", "upgrade", "host"]

/-- Models `should_forward_header`. -/
def should_forward_header (name : String) : Bool :=
  !(HOP_BY_HOP_HEADERS.contains (lowerStr name))

/-- Models `HeaderMap::insert`: replace the value of an existing header
(names compared case-insensitively), otherwise append. -/
def headerMapInsert (m : List (String × String)) (name value : String) :
    List (String × String) :=
  if m.any (fun q => lowerStr q.1 = lowerStr name) then
    m.map (fun q => if lowerStr q.1 = lowerStr name then (q.1, value) else q)
  else m ++ [(name, value)]

/-- Header set of one outbound attempt (`proxy.rs` lines 257-268): copy
the inbound headers, dropping hop-by-hop headers and any `authorization`
header, then insert `authorization: Bearer <api_key>`. -/
def buildOutboundHeaders (inbound : List (String × String)) (apiKey : String) :
    List (String × String) :=
  let forwarded := inbound.foldl
    (fun acc nv =>
      if should_forward_header nv.1 ∧ lowerStr nv.1 ≠ "authorization" then
        headerMapInsert acc nv.1 nv.2
      else acc) []
  headerMapInsert forwarded "authorization" ("Bearer " ++ apiKey)

/-! ## The failover loop (`proxy.rs::proxy_handler`)

The network is abstracted by an oracle `u : Nat → Nat → Outcome` giving
the outcome of attempt number `j` against the provider at position `i`
of the ordered eligible list, and by a predicate `validUri` saying which
target URLs the request builder accepts.  The handler returns its result
together with the ordered trace of events it performed. -/

/-- Outcome of one outbound attempt: a transport error, or a response
with a status and whether its body could be read. -/
inductive Outcome where
  | transportErr : Outcome
  | resp (status : Nat) (bodyOk : Bool) : Outcome
deriving DecidableEq

/-- The `status == StatusCode::OK` test: `some bodyOk` iff the status is
exactly 200. -/
def outcomeSuccess : Outcome → Option Bool
  | .transportErr => none
  | .resp s b => if s = 200 then some b else none

/-- Events of a handler run: an upstream attempt (provider position,
attempt index, outcome) or the fixed inter-retry backoff sleep. -/
inductive Event where
  | attempt (pIdx aIdx : Nat) (o : Outcome) : Event
  | sleep (ms : Nat) : Event
deriving DecidableEq

/-- The handler's result: a relayed upstream response or an HTTP error
status returned to the caller. -/
inductive HandlerResult where
  | relayed (pIdx : Nat) (status : Nat) : HandlerResult
  | httpErr (code : Nat) : HandlerResult
deriving DecidableEq

/-- Does the event record an attempt whose status was exactly 200? -/
def is200Event : Event → Bool
  | .attempt _ _ o => (outcomeSuccess o).isSome
  | .sleep _ => false

/-- The retry loop for one provider (`for retry in 0..=retry_count`),
starting at attempt `i` with `left` further attempts allowed.  A 200
status stops the loop (relaying on a readable body, 502 otherwise); any
other status or a transport error falls through, sleeping 100 ms before
the next attempt when one remains. -/
def attemptLoopAux (u : Nat → Nat → Outcome) (p : Nat) :
    Nat → Nat → List Event × Option HandlerResult
  | i, 0 =>
    match outcomeSuccess (u p i) with
    | some b =>
      ([Event.attempt p i (u p i)],
        some (if b then HandlerResult.relayed p 200 else HandlerResult.httpErr 502))
    | none => ([Event.attempt p i (u p i)], none)
  | i, left + 1 =>
    match outcomeSuccess (u p i) with
    | some b =>
      ([Event.attempt p i (u p i)],
        some (if b then HandlerResult.relayed p 200 else HandlerResult.httpErr 502))
    | none =>
      (Event.attempt p i (u p i) :: Event.sleep 100 ::
          (attemptLoopAux u p (i + 1) left).1,
        (attemptLoopAux u p (i + 1) left).2)

/-- The full retry loop for one provider: attempts `0..=retryCount`. -/
def attemptLoop (u : Nat → Nat → Outcome) (p retryCount : Nat) :
    List Event × Option HandlerResult :=
  attemptLoopAux u p 0 retryCount

/-- The provider loop (`for provider in providers.iter()`): skip a
provider whose credential extraction fails, skip one whose target URL the
request builder rejects (the builder `break`s on the first attempt), and
otherwise run the retry loop, stopping at its first`some` result. -/
def providerLoop (u : Nat → Nat → Outcome) (t : AppType) (rc : Nat)
    (validUri : String → Bool) (path : String) :
    List (Nat × Provider) → List Event × Option HandlerResult
  | [] => ([], none)
  | ip :: rest =>
    match extract_provider_credentials ip.2 t with
    | .error _ => providerLoop u t rc validUri path rest
    | .ok kv =>
      if validUri (trimTrailingSlash kv.2 ++ path) then
        match attemptLoop u ip.1 rc with
        | (evs, some r) => (evs, some r)
        | (evs, none) =>
          (evs ++ (providerLoop u t rc validUri path rest).1,
            (providerLoop u t rc validUri path rest).2)
      else providerLoop u t rc validUri path rest

/-- Models `proxy_handler`: read the body (400 on failure), detect the
client kind, fetch the ordered eligible providers (503 when none), run
the failover loop, and fall back to 500 when every provider is
exhausted. -/
def proxyHandler (cfg : AppConfig) (ua : Option String) (bodyOk : Bool)
    (rc : Nat) (validUri : String → Bool) (path : String)
    (u : Nat → Nat → Outcome) : HandlerResult × List Event :=
  if bodyOk = false then (HandlerResult.httpErr 400, [])
  else if (get_enabled_proxy_providers cfg (detect_app_type_from_user_agent ua)).isEmpty then
    (HandlerResult.httpErr 503, [])
  else
    match providerLoop u (detect_app_type_from_user_agent ua) rc validUri path
        (get_enabled_proxy_providers cfg (detect_app_type_from_user_agent ua)).enum with
    | (evs, some r) => (r, evs)
    | (evs, none) => (HandlerResult.httpErr 500, evs)

/-! ## Mode switching (`proxy.rs` lines 385-585)

The on-disk configs the two clients read are modelled by a `LiveState`
record; each config-file write becomes a field update.  The collaborators
`config::write_json_file`, `codex_config::write_codex_live_atomic` and
the path helpers are not part of the four core sources; following the
spec's `write_live_config(kind, data)` contract (§6) they are modelled
as plain state updates that always succeed. -/

/-- The live, on-disk configuration each client reads: the Claude
`settings.json` value, the Codex `auth.json` value and the Codex
`config.toml` text. -/
structure LiveState where
  claude_settings : JValue
  codex_auth : JValue
  codex_config_text : String

/-- Modelled from the spec: `config::write_json_file` on the Claude
settings path (the file writer lives outside the four core sources);
per §6 `write_live_config(kind, data)` it replaces the Claude live
config with the given value. -/
def write_claude_settings (v : JValue) (st : LiveState) : LiveState :=
  { st with claude_settings := v }

/-- Modelled from the spec: `codex_config::write_codex_live_atomic`
(outside the four core sources); per §6 it replaces the Codex live
auth value and config text (an absent text writes an empty config). -/
def write_codex_live_atomic (auth : JValue) (cfgText : Option String)
    (st : LiveState) : LiveState :=
  { st with codex_auth := auth, codex_config_text := cfgText.getD "" }

/-- The fixed local proxy address (`PROXY_URL`). -/
def PROXY_URL : String := "http://127.0.0.1:12857"

/-- The fixed placeholder token (`PROXY_TOKEN`). -/
def PROXY_TOKEN : String := "ccswitch-proxymode-token"

/-- The base Claude proxy-mode config built in `write_proxy_mode_config`. -/
def claudeProxyBase : JValue :=
  .obj [("env", .obj [("ANTHROPIC_AUTH_TOKEN", .str PROXY_TOKEN),
                      ("ANTHROPIC_BASE_URL", .str PROXY_URL)])]

/-- Merge the `env` object of the common config into an `env` value,
skipping the two placeholder keys (`proxy.rs` lines 413-421). -/
def mergeEnv (envVal : JValue) (commonEnv : List (String × JValue)) : JValue :=
  match envVal with
  | .obj envFields =>
    .obj (commonEnv.foldl
      (fun e kv =>
        if kv.1 ≠ "ANTHROPIC_AUTH_TOKEN" ∧ kv.1 ≠ "ANTHROPIC_BASE_URL" then
          objSet e kv.1 kv.2
        else e) envFields)
  | _ => envVal

/-- Merge a parsed Claude common config into the proxy-mode config
(`proxy.rs` lines 405-431).  The common-config string is taken already
parsed; a string that fails to parse corresponds to `none` (the code
silently skips the merge). -/
def mergeClaudeCommon (proxyCfg : JValue) (common : Option JValue) : JValue :=
  match common with
  | none => proxyCfg
  | some c =>
    match c.asObject with
    | none => proxyCfg
    | some commonFields =>
      match proxyCfg with
      | .obj proxyFields =>
        .obj (commonFields.foldl
          (fun acc kv =>
            if kv.1 = "env" then
              match kv.2.asObject with
              | some commonEnv =>
                acc.map (fun f => if f.1 = "env" then (f.1, mergeEnv f.2 commonEnv) else f)
              | none => acc
            else objSet acc kv.1 kv.2) proxyFields)
      | _ => proxyCfg

/-- The Codex proxy-mode `config.toml` text (`proxy.rs` lines 448-463). -/
def codexProxyConfigText (common : Option String) : String :=
  let commonText := common.getD ""
  "model_provider = \"ccswitch\"\n\n[model_providers.ccswitch]\nbase_url = \""
    ++ PROXY_URL
    ++ "\"\nname = \"ccswitch\"\nrequires_openai_auth = true\nwire_api = \"responses\"\n"
    ++ (if commonText.isEmpty then "" else "\n" ++ commonText)

/-- Models `write_proxy_mode_config` for one client kind. -/
def write_proxy_mode_config (t : AppType) (claudeCommon : Option JValue)
    (codexCommon : Option String) (st : LiveState) : LiveState :=
  match t with
  | .Claude =>
    write_claude_settings (mergeClaudeCommon claudeProxyBase claudeCommon) st
  | .Codex =>
    { st with codex_auth := .obj [("OPENAI_API_KEY", .str PROXY_TOKEN)],
              codex_config_text := codexProxyConfigText codexCommon }

/-- Models `switch_to_proxy_mode`: write the proxy-mode config for both
client kinds. -/
def switch_to_proxy_mode (claudeCommon : Option JValue)
    (codexCommon : Option String) (st : LiveState) : LiveState :=
  write_proxy_mode_config .Codex claudeCommon codexCommon
    (write_proxy_mode_config .Claude claudeCommon codexCommon st)

/-- Lookup of `manager.providers.get(id)`. -/
def lookupProvider (l : List (String × Provider)) (id : String) : Option Provider :=
  (l.find? (fun q => q.1 = id)).map (fun q => q.2)

/-- The `(id, provider)` pairs sorted with the same comparator on the
provider component (`switch_to_write_mode`'s fallback selection). -/
def sortProviderPairs (l : List (String × Provider)) : List (String × Provider) :=
  sortByOrd (fun a b => cmpProvider a.2 b.2) l

/-- Models `switch_to_write_mode`: restore each client's live config from
its `current` provider (or the first provider in sorted order when none
is selected, persisting that choice).  The Codex step fails when the
chosen provider has no `auth` value; the Claude step's writes have
already happened by then (no rollback). -/
def switch_to_write_mode (cfg : AppConfig) (st : LiveState) :
    Except String Unit × AppConfig × LiveState :=
  let claudeStep : ProviderManager × LiveState :=
    if cfg.claude.current ≠ "" then
      match lookupProvider cfg.claude.providers cfg.claude.current with
      | some p => (cfg.claude, write_claude_settings p.settings_config st)
      | none => (cfg.claude, st)
    else
      match (sortProviderPairs cfg.claude.providers).head? with
      | some ip =>
        ({ cfg.claude with current := ip.1 },
          write_claude_settings ip.2.settings_config st)
      | none => (cfg.claude, st)
  let codexStep : Except String Unit × ProviderManager × LiveState :=
    if cfg.codex.current ≠ "" then
      match lookupProvider cfg.codex.providers cfg.codex.current with
      | some q =>
        match q.settings_config.getKey "auth" with
        | some a =>
          (.ok (), cfg.codex,
            write_codex_live_atomic a
              ((q.settings_config.getKey "config").bind JValue.asStr) claudeStep.2)
        | none => (.error "目标供应商缺少 auth 配置", cfg.codex, claudeStep.2)
      | none => (.ok (), cfg.codex, claudeStep.2)
    else
      match (sortProviderPairs cfg.codex.providers).head? with
      | some iq =>
        match iq.2.settings_config.getKey "auth" with
        | some a =>
          (.ok (), { cfg.codex with current := iq.1 },
            write_codex_live_atomic a
              ((iq.2.settings_config.getKey "config").bind JValue.asStr) claudeStep.2)
        | none => (.error "目标供应商缺少 auth 配置", cfg.codex, claudeStep.2)
      | none => (.ok (), cfg.codex, claudeStep.2)
  (codexStep.1, { claude := claudeStep.1, codex := codexStep.2.1 }, codexStep.2.2)

/-! ## Usage-script sandbox (`usage_script.rs`) -/

/-- The transport-neutral request descriptor produced by the script's
first pass (`usage_script.rs::RequestConfig`). -/
structure RequestConfig where
  url : String
  method : String
  headers : List (String × String) := []
  body : Option String := none

/-- Valid HTTP-method token characters (RFC 7230 tchar), the characters
`http::Method::from_str` accepts. -/
def isMethodTokenChar (c : Char) : Bool :=
  c.isAlphanum || "!#$%&'*+-.^_`|~".data.contains c

/-- Models `config.method.parse::<reqwest::Method>()`: any non-empty
token parses (standard methods and extensions alike); anything else is a
parse error. -/
def parseHttpMethod (s : String) : Option String :=
  if s ≠ "" ∧ s.data.all isMethodTokenChar then some s else none

/-- The method actually used by `send_http_request`:
`parse().unwrap_or(Method::GET)`. -/
def requestMethodOf (c : RequestConfig) : String :=
  (parseHttpMethod c.method).getD "GET"

/-- Rust's `str::is_char_boundary` test on a byte: ASCII or a UTF-8
leading byte. -/
def isUtf8CharBoundaryByte (b : Nat) : Bool :=
  b < 128 || 192 ≤ b

/-- The body preview computed by `send_http_request` for a non-2xx
response, at the byte level: `&text[..200]` plus `"..."` when the body
exceeds 200 bytes.  Rust panics when byte 200 is not a character
boundary; the panic is the `none` result. -/
def previewBytes (text : List Nat) : Option (List Nat) :=
  if text.length > 200 then
    if isUtf8CharBoundaryByte (text.getD 200 0) then
      some (text.take 200 ++ [46, 46, 46])
    else none
  else some text

/-- The response-handling tail of `send_http_request`: a 2xx response
yields the body text; otherwise the step fails with the status and the
truncated preview.  `none` models the truncation panic. -/
def sendResponseStage (status : Nat) (text : List Nat) :
    Option (Except (Nat × List Nat) (List Nat)) :=
  if 200 ≤ status ∧ status ≤ 299 then some (.ok text)
  else
    match previewBytes text with
    | some pv => some (.error (status, pv))
    | none => none

/-- Models `validate_single_usage`: the value must be an object, and each
recognized field, when present and non-null, must have its declared
type. -/
def validate_single_usage (v : JValue) : Except String Unit :=
  match v.asObject with
  | none => .error "脚本必须返回对象或对象数组"
  | some fs =>
    if containsKeyF fs "isValid" ∧ ¬(jIndex fs "isValid").isNull = true
        ∧ ¬(jIndex fs "isValid").isBoolean = true then
      .error "isValid 必须是布尔值或 null"
    else if containsKeyF fs "invalidMessage" ∧ ¬(jIndex fs "invalidMessage").isNull = true
        ∧ ¬(jIndex fs "invalidMessage").isString = true then
      .error "invalidMessage 必须是字符串或 null"
    else if containsKeyF fs "remaining" ∧ ¬(jIndex fs "remaining").isNull = true
        ∧ ¬(jIndex fs "remaining").isNumber = true then
      .error "remaining 必须是数字或 null"
    else if containsKeyF fs "unit" ∧ ¬(jIndex fs "unit").isNull = true
        ∧ ¬(jIndex fs "unit").isString = true then
      .error "unit 必须是字符串或 null"
    else if containsKeyF fs "total" ∧ ¬(jIndex fs "total").isNull = true
        ∧ ¬(jIndex fs "total").isNumber = true then
      .error "total 必须是数字或 null"
    else if containsKeyF fs "used" ∧ ¬(jIndex fs "used").isNull = true
        ∧ ¬(jIndex fs "used").isNumber = true then
      .error "used 必须是数字或 null"
    else if containsKeyF fs "planName" ∧ ¬(jIndex fs "planName").isNull = true
        ∧ ¬(jIndex fs "planName").isString = true then
      .error "planName 必须是字符串或 null"
    else if containsKeyF fs "extra" ∧ ¬(jIndex fs "extra").isNull = true
        ∧ ¬(jIndex fs "extra").isString = true then
      .error "extra 必须是字符串或 null"
    else .ok ()

/-- The indexed element loop of `validate_result` over an array. -/
def validateItems : List JValue → Nat → Except String Unit
  | [], _ => .ok ()
  | x :: xs, i =>
    match validate_single_usage x with
    | .ok () => validateItems xs (i + 1)
    | .error e => .error ("数组索引[" ++ toString i ++ "]验证失败: " ++ e)

/-- Models `validate_result`: an array must be non-empty and have every
element valid (errors are wrapped with the element index); any other
value is validated as a single usage object. -/
def validate_result (v : JValue) : Except String Unit :=
  match v.asArray with
  | some xs =>
    if xs.isEmpty then .error "脚本返回的数组不能为空"
    else validateItems xs 0
  | none => validate_single_usage v

/-! ## Specification-side definitions

These follow the wording of the spec/claims (not the code); they exist
to be compared against the definitions above. -/

/-- Follows the spec's words: a recognized field is acceptable when it is
absent, null, or of its declared type. -/
def usageFieldOk (fs : List (String × JValue)) (k : String)
    (tOk : JValue → Bool) : Bool :=
  match lookupField fs k with
  | none => true
  | some v => v.isNull || tOk v

/-- Follows the spec's words: a usage object is an object whose
recognized fields all satisfy `usageFieldOk` with their declared types. -/
def specUsageObjOk (v : JValue) : Bool :=
  match v.asObject with
  | none => false
  | some fs =>
    usageFieldOk fs "isValid" JValue.isBoolean &&
    usageFieldOk fs "invalidMessage" JValue.isString &&
    usageFieldOk fs "remaining" JValue.isNumber &&
    usageFieldOk fs "unit" JValue.isString &&
    usageFieldOk fs "total" JValue.isNumber &&
    usageFieldOk fs "used" JValue.isNumber &&
    usageFieldOk fs "planName" JValue.isString &&
    usageFieldOk fs "extra" JValue.isString

/-- Follows the claim's words: the validator accepts exactly a single
usage object or a non-empty array of usage objects. -/
def specAccepts (v : JValue) : Bool :=
  match v.asArray with
  | some xs => !xs.isEmpty && xs.all specUsageObjOk
  | none => specUsageObjOk v

/-- Rejection messages of the single-object validator: the non-object
message, or the message of a failing recognized field. -/
def singleErrNames (v : JValue) (e : String) : Prop :=
  (v.asObject = none ∧ e = "脚本必须返回对象或对象数组")
  ∨ ∃ fs, v.asObject = some fs ∧
    ((usageFieldOk fs "isValid" JValue.isBoolean = false
        ∧ e = "isValid 必须是布尔值或 null")
     ∨ (usageFieldOk fs "invalidMessage" JValue.isString = false
        ∧ e = "invalidMessage 必须是字符串或 null")
     ∨ (usageFieldOk fs "remaining" JValue.isNumber = false
        ∧ e = "remaining 必须是数字或 null")
     ∨ (usageFieldOk fs "unit" JValue.isString = false
        ∧ e = "unit 必须是字符串或 null")
     ∨ (usageFieldOk fs "total" JValue.isNumber = false
        ∧ e = "total 必须是数字或 null")
     ∨ (usageFieldOk fs "used" JValue.isNumber = false
        ∧ e = "used 必须是数字或 null")
     ∨ (usageFieldOk fs "planName" JValue.isString = false
        ∧ e = "planName 必须是字符串或 null")
     ∨ (usageFieldOk fs "extra" JValue.isString = false
        ∧ e = "extra 必须是字符串或 null"))

/-- Every rejection of `validate_result` names its cause: the non-object
message, the empty-array message, or an offending element's index wrapped
around that element's own field-naming message. -/
def resultErrNames (v : JValue) (e : String) : Prop :=
  match v.asArray with
  | some xs =>
    (xs = [] ∧ e = "脚本返回的数组不能为空")
    ∨ ∃ j x e2, xs.get? j = some x ∧ singleErrNames x e2
        ∧ e = "数组索引[" ++ toString j ++ "]验证失败: " ++ e2
  | none => singleErrNames v e

/-! ## C10: invalid HTTP method falls back to GET -/

/-- C10: for every request descriptor whose method string does not parse
as an HTTP method, the sandbox HTTP step does not fail: it silently uses
GET; a method that does parse is used as given. -/
theorem c10_method_fallback (c : RequestConfig) :
    (parseHttpMethod c.method = none → requestMethodOf c = "GET")
    ∧ (∀ m, parseHttpMethod c.method = some m → requestMethodOf c = m) := by
  constructor
  · intro h
    simp [requestMethodOf, h]
  · intro m h
    simp [requestMethodOf, h]

/-- Witness for C10 at a method string containing a space (not a token). -/
theorem c10_method_fallback_witness :
    requestMethodOf { url := "https://example.com/usage", method := "GET IT" } = "GET" :=
  (c10_method_fallback _).1 (by decide)

/-! ## C8: the non-2xx body preview is not total -/

/-- A response body on which the preview slice panics: 199 ASCII bytes
followed by the three-byte UTF-8 encoding of one character, 202 bytes in
all, so byte 200 falls inside the final character. -/
def c8FailingBody : List Nat := List.replicate 199 97 ++ [226, 130, 172]

set_option maxRecDepth 4000 in
/-- C8: evaluating the non-2xx branch of `send_http_request` at the
failing body reaches the truncation panic (`none`): the preview
computation is not total, against the claim. -/
theorem c8_preview_truncation_panics :
    sendResponseStage 500 c8FailingBody = none
    ∧ c8FailingBody.length = 202
    ∧ isUtf8CharBoundaryByte (c8FailingBody.getD 200 0) = false := by
  refine ⟨by rfl, by rfl, by rfl⟩

/-! ## C6: validator acceptance condition -/

lemma usageFieldOk_false_iff (fs : List (String × JValue)) (k : String)
    (tOk : JValue → Bool) :
    usageFieldOk fs k tOk = false ↔
      (containsKeyF fs k = true ∧ ¬(jIndex fs k).isNull = true
        ∧ ¬tOk (jIndex fs k) = true) := by
  unfold usageFieldOk containsKeyF jIndex
  cases h : lookupField fs k <;> simp [h]

lemma usageFieldOk_true_iff (fs : List (String × JValue)) (k : String)
    (tOk : JValue → Bool) :
    usageFieldOk fs k tOk = true ↔
      ¬(containsKeyF fs k = true ∧ ¬(jIndex fs k).isNull = true
        ∧ ¬tOk (jIndex fs k) = true) := by
  rw [← usageFieldOk_false_iff fs k tOk]
  cases h : usageFieldOk fs k tOk <;> simp

lemma validate_single_ok_iff (v : JValue) :
    validate_single_usage v = .ok () ↔ specUsageObjOk v = true := by
  unfold validate_single_usage specUsageObjOk
  cases hv : v.asObject with
  | none => simp
  | some fs =>
    dsimp only
    split_ifs with h1 h2 h3 h4 h5 h6 h7 h8
    · have hf := (usageFieldOk_false_iff fs "isValid" JValue.isBoolean).mpr h1
      simp [hf]
    · have hf := (usageFieldOk_false_iff fs "invalidMessage" JValue.isString).mpr h2
      simp [hf]
    · have hf := (usageFieldOk_false_iff fs "remaining" JValue.isNumber).mpr h3
      simp [hf]
    · have hf := (usageFieldOk_false_iff fs "unit" JValue.isString).mpr h4
      simp [hf]
    · have hf := (usageFieldOk_false_iff fs "total" JValue.isNumber).mpr h5
      simp [hf]
    · have hf := (usageFieldOk_false_iff fs "used" JValue.isNumber).mpr h6
      simp [hf]
    · have hf := (usageFieldOk_false_iff fs "planName" JValue.isString).mpr h7
      simp [hf]
    · have hf := (usageFieldOk_false_iff fs "extra" JValue.isString).mpr h8
      simp [hf]
    · refine iff_of_true rfl ?_
      simp only [Bool.and_eq_true]
      exact ⟨⟨⟨⟨⟨⟨⟨(usageFieldOk_true_iff fs "isValid" JValue.isBoolean).mpr h1,
        (usageFieldOk_true_iff fs "invalidMessage" JValue.isString).mpr h2⟩,
        (usageFieldOk_true_iff fs "remaining" JValue.isNumber).mpr h3⟩,
        (usageFieldOk_true_iff fs "unit" JValue.isString).mpr h4⟩,
        (usageFieldOk_true_iff fs "total" JValue.isNumber).mpr h5⟩,
        (usageFieldOk_true_iff fs "used" JValue.isNumber).mpr h6⟩,
        (usageFieldOk_true_iff fs "planName" JValue.isString).mpr h7⟩,
        (usageFieldOk_true_iff fs "extra" JValue.isString).mpr h8⟩

lemma validate_single_err_names (v : JValue) (e : String)
    (h : validate_single_usage v = .error e) : singleErrNames v e := by
  unfold validate_single_usage at h
  unfold singleErrNames
  cases hv : v.asObject with
  | none =>
    rw [hv] at h
    exact Or.inl ⟨rfl, (Except.error.injEq _ _).mp h.symm⟩
  | some fs =>
    rw [hv] at h
    dsimp only at h
    refine Or.inr ⟨fs, rfl, ?_⟩
    split_ifs at h with h1 h2 h3 h4 h5 h6 h7 h8 <;>
      simp only [Except.error.injEq] at h <;>
      simp_all [usageFieldOk_false_iff]

lemma validateItems_ok_iff (xs : List JValue) (i : Nat) :
    validateItems xs i = .ok () ↔ ∀ x ∈ xs, specUsageObjOk x = true := by
  induction xs generalizing i with
  | nil => simp [validateItems]
  | cons x rest ih =>
    unfold validateItems
    cases h : validate_single_usage x with
    | ok u =>
      cases u
      have hx : specUsageObjOk x = true := (validate_single_ok_iff x).mp h
      simp [ih, hx]
    | error e =>
      have hx : specUsageObjOk x ≠ true := by
        intro hc
        rw [← validate_single_ok_iff x] at hc
        rw [h] at hc
        exact Except.noConfusion hc
      simp [hx]

lemma validateItems_err (xs : List JValue) (i : Nat) (e : String)
    (h : validateItems xs i = .error e) :
    ∃ j x e2, xs.get? j = some x ∧ validate_single_usage x = .error e2 ∧
      e = "数组索引[" ++ toString (i + j) ++ "]验证失败: " ++ e2 := by
  induction xs generalizing i with
  | nil => simp [validateItems] at h
  | cons x rest ih =>
    unfold validateItems at h
    cases hx : validate_single_usage x with
    | ok u =>
      cases u
      rw [hx] at h
      obtain ⟨j, y, e2, hget, herr, hmsg⟩ := ih (i + 1) h
      refine ⟨j + 1, y, e2, by simpa using hget, herr, ?_⟩
      have : i + 1 + j = i + (j + 1) := by omega
      rw [← this]
      exact hmsg
    | error e2 =>
      rw [hx] at h
      refine ⟨0, x, e2, rfl, hx, ?_⟩
      have h2 := (Except.error.injEq _ _).mp h.symm
      simpa using h2

/-- C6: `validate_result` accepts a value exactly when it is a single
usage object or a non-empty array of usage objects whose recognized
fields, when present and non-null, have their declared types; and every
rejection message names the offending field (and the offending index for
array input). -/
theorem c6_validation (v : JValue) :
    (validate_result v = .ok () ↔ specAccepts v = true)
    ∧ ∀ e, validate_result v = .error e → resultErrNames v e := by
  unfold validate_result specAccepts resultErrNames
  cases hv : v.asArray with
  | none =>
    exact ⟨validate_single_ok_iff v, fun e he => validate_single_err_names v e he⟩
  | some xs =>
    dsimp only
    by_cases hempty : xs.isEmpty
    · rw [if_pos hempty]
      have hnil : xs = [] := List.isEmpty_iff.mp hempty
      constructor
      · simp [hempty]
      · intro e he
        exact Or.inl ⟨hnil, (Except.error.injEq _ _).mp he.symm⟩
    · rw [if_neg hempty]
      constructor
      · rw [validateItems_ok_iff]
        simp [hempty, List.all_eq_true]
      · intro e he
        obtain ⟨j, x, e2, hget, herr, hmsg⟩ := validateItems_err xs 0 e he
        exact Or.inr ⟨j, x, e2, hget, validate_single_err_names x e2 herr, by simpa using hmsg⟩

/-- Witness for C6: a one-element array whose element has a string
`isValid` is rejected with a message naming index 0 and field `isValid`. -/
theorem c6_validation_witness :
    resultErrNames (.arr [.obj [("isValid", .str "yes")]])
      "数组索引[0]验证失败: isValid 必须是布尔值或 null" :=
  (c6_validation _).2 _ (by rfl)

/-! ## C1: the Authorization header is always replaced -/

lemma headerMapInsert_fst_pred (P : String → Prop) (m : List (String × String))
    (n v : String) (hm : ∀ q ∈ m, P q.1) (hn : P n) :
    ∀ q ∈ headerMapInsert m n v, P q.1 := by
  intro q hq
  unfold headerMapInsert at hq
  split at hq
  · obtain ⟨q1, hq1, hq1e⟩ := List.mem_map.mp hq
    by_cases hc : lowerStr q1.1 = lowerStr n
    · rw [if_pos hc] at hq1e
      rw [← hq1e]
      exact hm q1 hq1
    · rw [if_neg hc] at hq1e
      rw [← hq1e]
      exact hm q1 hq1
  · rcases List.mem_append.mp hq with h | h
    · exact hm q h
    · rw [List.mem_singleton.mp h]
      exact hn

lemma forwarded_headers_no_auth (inbound : List (String × String))
    (acc : List (String × String))
    (hacc : ∀ q ∈ acc, lowerStr q.1 ≠ "authorization") :
    ∀ q ∈ inbound.foldl
      (fun acc nv =>
        if should_forward_header nv.1 ∧ lowerStr nv.1 ≠ "authorization" then
          headerMapInsert acc nv.1 nv.2
        else acc) acc,
      lowerStr q.1 ≠ "authorization" := by
  induction inbound generalizing acc with
  | nil => exact hacc
  | cons nv rest ih =>
    simp only [List.foldl_cons]
    apply ih
    by_cases hc : should_forward_header nv.1 ∧ lowerStr nv.1 ≠ "authorization"
    · rw [if_pos hc]
      exact headerMapInsert_fst_pred (fun s => lowerStr s ≠ "authorization") acc nv.1 nv.2 hacc hc.2
    · rw [if_neg hc]
      exact hacc

/-- C1: for every inbound header list and every provider whose credential
extraction yields an api key, the outbound header set carries
`authorization: Bearer <api_key>`, and any header named `authorization`
(in any case) carries exactly that bearer value — in particular the
inbound Authorization value is never forwarded. -/
theorem c1_authorization_replaced (inbound : List (String × String))
    (p : Provider) (t : AppType) (apiKey baseUrl : String)
    (_hx : extract_provider_credentials p t = .ok (apiKey, baseUrl)) :
    ("authorization", "Bearer " ++ apiKey) ∈ buildOutboundHeaders inbound apiKey
    ∧ ∀ q ∈ buildOutboundHeaders inbound apiKey,
        lowerStr q.1 = "authorization" → q.2 = "Bearer " ++ apiKey := by
  unfold buildOutboundHeaders
  have hfwd := forwarded_headers_no_auth inbound [] (by intro q hq; cases hq)
  set F := inbound.foldl
      (fun acc nv =>
        if should_forward_header nv.1 ∧ lowerStr nv.1 ≠ "authorization" then
          headerMapInsert acc nv.1 nv.2
        else acc) [] with hF
  have hlow : lowerStr "authorization" = "authorization" := by decide
  have hany : (F.any fun q => lowerStr q.1 = lowerStr "authorization") = false := by
    rw [List.any_eq_false]
    intro q hq
    simp only [decide_eq_true_eq, hlow]
    exact hfwd q hq
  unfold headerMapInsert
  rw [if_neg (by simp [hany])]
  constructor
  · exact List.mem_append_right _ (List.mem_singleton.mpr rfl)
  · intro q hq hqa
    rcases List.mem_append.mp hq with h | h
    · exact absurd hqa (hfwd q h)
    · rw [List.mem_singleton.mp h]

/-- A concrete Claude provider used by the C1 witness. -/
def c1SampleProvider : Provider :=
  { id := "p1", name := "primary",
    settings_config := .obj [("env", .obj
      [("ANTHROPIC_AUTH_TOKEN", .str "sk-real"),
       ("ANTHROPIC_BASE_URL", .str "https://api.example.com")])] }

/-- Witness for C1: with an inbound Authorization header present, the
outbound set contains the bearer built from the extracted key. -/
theorem c1_authorization_replaced_witness :
    ("authorization", "Bearer " ++ "sk-real") ∈
      buildOutboundHeaders
        [("Authorization", "Bearer caller-placeholder"), ("content-type", "application/json")]
        "sk-real" :=
  (c1_authorization_replaced _ c1SampleProvider .Claude "sk-real"
    "https://api.example.com" (by rfl)).1

/-! ## C5: Codex credential-extraction failures -/

lemma takeWhile_append_stop {p : Char → Bool} (xs : List Char) (y : Char)
    (ys : List Char) (hx : ∀ x ∈ xs, p x = true) (hy : p y = false) :
    (xs ++ y :: ys).takeWhile p = xs := by
  induction xs with
  | nil => simp [hy]
  | cons a as ih =>
    have ha := hx a (List.mem_cons_self a as)
    simp only [List.cons_append, List.takeWhile_cons_of_pos ha]
    rw [ih (fun x hx2 => hx x (List.mem_cons_of_mem a hx2))]

lemma dropWhile_append_stop {p : Char → Bool} (xs : List Char) (y : Char)
    (ys : List Char) (hx : ∀ x ∈ xs, p x = true) (hy : p y = false) :
    (xs ++ y :: ys).dropWhile p = y :: ys := by
  induction xs with
  | nil => simp [hy]
  | cons a as ih =>
    have ha := hx a (List.mem_cons_self a as)
    simp only [List.cons_append, List.dropWhile_cons_of_pos ha]
    exact ih (fun x hx2 => hx x (List.mem_cons_of_mem a hx2))

lemma matchAfterToken_assign (v rest : List Char) (hv : v ≠ [])
    (hq : ∀ c ∈ v, quoteChar c = false) :
    matchAfterToken (' ' :: '=' :: ' ' :: '"' :: (v ++ '"' :: rest))
      = some (String.mk v) := by
  have hws : isWs ' ' = true := by decide
  have hwe : ¬ isWs '=' = true := by decide
  have hwq : ¬ isWs '"' = true := by decide
  have htake : (v ++ '"' :: rest).takeWhile (fun c => !quoteChar c) = v :=
    takeWhile_append_stop v '"' rest
      (fun c hc => by simp [hq c hc]) (by decide)
  have hdrop : (v ++ '"' :: rest).dropWhile (fun c => !quoteChar c) = '"' :: rest :=
    dropWhile_append_stop v '"' rest
      (fun c hc => by simp [hq c hc]) (by decide)
  have hvE : v.isEmpty = false := by
    cases v with
    | nil => exact absurd rfl hv
    | cons a as => rfl
  unfold matchAfterToken
  rw [show (' ' :: '=' :: ' ' :: '"' :: (v ++ '"' :: rest)).dropWhile isWs
      = '=' :: ' ' :: '"' :: (v ++ '"' :: rest) from by
    rw [List.dropWhile_cons_of_pos hws, List.dropWhile_cons_of_neg hwe]]
  simp only [List.head?_cons, List.tail_cons]
  rw [show (' ' :: '"' :: (v ++ '"' :: rest)).dropWhile isWs
      = '"' :: (v ++ '"' :: rest) from by
    rw [List.dropWhile_cons_of_pos hws, List.dropWhile_cons_of_neg hwq]]
  simp only [List.head?_cons, List.tail_cons]
  rw [htake, hdrop, hvE]
  simp [quoteChar]

lemma matchAt_assign (v rest : List Char) (hv : v ≠ [])
    (hq : ∀ c ∈ v, quoteChar c = false) :
    matchAt ('b' :: 'a' :: 's' :: 'e' :: '_' :: 'u' :: 'r' :: 'l' :: ' ' :: '=' ::
        ' ' :: '"' :: (v ++ '"' :: rest)) = some (String.mk v) := by
  unfold matchAt
  rw [if_pos (by rfl)]
  exact matchAfterToken_assign v rest hv hq

lemma findFirstBaseUrl_assign (v rest : List Char) (hv : v ≠ [])
    (hq : ∀ c ∈ v, quoteChar c = false) :
    findFirstBaseUrl ('b' :: 'a' :: 's' :: 'e' :: '_' :: 'u' :: 'r' :: 'l' :: ' ' ::
        '=' :: ' ' :: '"' :: (v ++ '"' :: rest)) = some (String.mk v) := by
  unfold findFirstBaseUrl
  rw [matchAt_assign v rest hv hq]

lemma containsSub_assign (v rest : List Char) :
    containsSub "base_url".data ('b' :: 'a' :: 's' :: 'e' :: '_' :: 'u' :: 'r' ::
      'l' :: ' ' :: '=' :: ' ' :: '"' :: (v ++ '"' :: rest)) = true := by
  unfold containsSub
  rw [show ("base_url".data.isPrefixOf ('b' :: 'a' :: 's' :: 'e' :: '_' :: 'u' ::
    'r' :: 'l' :: ' ' :: '=' :: ' ' :: '"' :: (v ++ '"' :: rest))) = true from rfl]
  rfl

/-- C5: Codex extraction fails with the missing-field errors when the
`auth` map or its `OPENAI_API_KEY` string is absent; with the
missing-configuration error when the config text lacks the `base_url`
token; with the distinct malformed-config error when the token is
present but the quoted-string pattern never matches; and the leftmost
pattern match wins: a well-formed assignment at the start of the text is
extracted whatever follows it. -/
theorem c5_codex_extraction (p : Provider) :
    ((p.settings_config.getKey "auth").bind JValue.asObject = none →
      extract_provider_credentials p .Codex = .error "配置格式错误: 缺少 auth")
    ∧ (∀ auth, (p.settings_config.getKey "auth").bind JValue.asObject = some auth →
        (lookupField auth "OPENAI_API_KEY").bind JValue.asStr = none →
        extract_provider_credentials p .Codex = .error "缺少 OPENAI_API_KEY")
    ∧ (∀ auth apiKey,
        (p.settings_config.getKey "auth").bind JValue.asObject = some auth →
        (lookupField auth "OPENAI_API_KEY").bind JValue.asStr = some apiKey →
        (containsSub "base_url".data
            (((p.settings_config.getKey "config").bind JValue.asStr).getD "").data = false →
          extract_provider_credentials p .Codex = .error "config.toml 中缺少 base_url 配置")
        ∧ (containsSub "base_url".data
              (((p.settings_config.getKey "config").bind JValue.asStr).getD "").data = true →
            findFirstBaseUrl
              (((p.settings_config.getKey "config").bind JValue.asStr).getD "").data = none →
            extract_provider_credentials p .Codex = .error "config.toml 中 base_url 格式错误")
        ∧ (∀ v rest,
            (((p.settings_config.getKey "config").bind JValue.asStr).getD "").data
              = 'b' :: 'a' :: 's' :: 'e' :: '_' :: 'u' :: 'r' :: 'l' :: ' ' :: '=' ::
                ' ' :: '"' :: (v ++ '"' :: rest) →
            v ≠ [] → (∀ c ∈ v, quoteChar c = false) →
            extract_provider_credentials p .Codex = .ok (apiKey, String.mk v))) := by
  refine ⟨?_, ?_, ?_⟩
  · intro h
    unfold extract_provider_credentials
    rw [h]
  · intro auth hauth hkey
    unfold extract_provider_credentials
    rw [hauth]
    dsimp only
    rw [hkey]
  · intro auth apiKey hauth hkey
    refine ⟨?_, ?_, ?_⟩
    · intro hcont
      unfold extract_provider_credentials
      rw [hauth]
      dsimp only
      rw [hkey]
      dsimp only
      rw [if_neg (by simp [hcont])]
    · intro hcont hfind
      unfold extract_provider_credentials
      rw [hauth]
      dsimp only
      rw [hkey]
      dsimp only
      rw [if_pos hcont, hfind]
    · intro v rest hcfg hv hq
      unfold extract_provider_credentials
      rw [hauth]
      dsimp only
      rw [hkey]
      dsimp only
      rw [if_pos (by rw [hcfg]; exact containsSub_assign v rest)]
      rw [hcfg, findFirstBaseUrl_assign v rest hv hq]

/-- A concrete Codex provider whose config text carries two `base_url`
assignments; used by the C5 witness. -/
def c5SampleProvider : Provider :=
  { id := "c1", name := "codex-primary",
    settings_config := .obj
      [("auth", .obj [("OPENAI_API_KEY", .str "ok-key")]),
       ("config", .str "base_url = \"https://first.example\"\nbase_url = \"https://second.example\"")] }

/-- Witness for C5: with two assignments in the config text, extraction
returns the first one. -/
theorem c5_codex_extraction_witness :
    extract_provider_credentials c5SampleProvider .Codex
      = .ok ("ok-key", String.mk "https://first.example".data) :=
  ((c5_codex_extraction c5SampleProvider).2.2
      [("OPENAI_API_KEY", JValue.str "ok-key")] "ok-key" rfl rfl).2.2
    "https://first.example".data
    ("\nbase_url = \"https://second.example\"").data
    (by decide) (by decide) (by decide)

/-! ## C4: provider ordering -/

/-- The non-strict order induced by the comparator: `a` may come before
`b` in a sorted list. -/
def proxyLe (a b : Provider) : Prop := cmpProvider a b ≠ Ordering.gt

/-- Follows the claim's words (C4): among providers with equal or absent
sort keys, the earlier `createdAt` precedes the later. -/
def specClaimTieOrder (a b : Provider) : Prop :=
  (a.sort_index = b.sort_index ∨ (a.sort_index = none ∧ b.sort_index = none)) →
  ∀ ta tb, a.created_at = some ta → b.created_at = some tb → ta ≤ tb

lemma cmpProvider_gt_le {h x : Provider} (hgt : cmpProvider h x = .gt) :
    proxyLe x h := by
  unfold cmpProvider at hgt
  unfold proxyLe cmpProvider
  rcases hh : h.sort_index with _ | k <;> rcases hxx : x.sort_index with _ | i <;>
    simp only [hh, hxx] at hgt ⊢
  · rcases hhc : h.created_at with _ | s <;> rcases hxc : x.created_at with _ | t <;>
      simp only [hhc, hxc] at hgt ⊢ <;> try simp at hgt
    rw [compare_le_iff_le]
    have := compare_gt_iff_gt.mp hgt
    omega
  · simp
  · simp at hgt
  · rw [compare_le_iff_le]
    have := compare_gt_iff_gt.mp hgt
    omega

lemma insertSortedBy_perm (cmp : α → α → Ordering) (x : α) (l : List α) :
    List.Perm (insertSortedBy cmp x l) (x :: l) := by
  induction l with
  | nil => exact List.Perm.refl _
  | cons h t ih =>
    unfold insertSortedBy
    by_cases hc : cmp h x = .gt ∧ ∀ y ∈ t, cmp y x = .gt
    · rw [if_pos hc]
    · rw [if_neg hc]
      exact (List.Perm.cons h ih).trans (List.Perm.swap x h t)

lemma sortByOrd_perm (cmp : α → α → Ordering) (l : List α) :
    List.Perm (sortByOrd cmp l) l := by
  suffices hgen : ∀ acc : List α,
      List.Perm (l.foldl (fun acc x => insertSortedBy cmp x acc) acc) (acc ++ l) by
    simpa using hgen []
  induction l with
  | nil => intro acc; simp
  | cons x t ih =>
    intro acc
    simp only [List.foldl_cons]
    refine (ih (insertSortedBy cmp x acc)).trans ?_
    have h1 : List.Perm (insertSortedBy cmp x acc ++ t) ((x :: acc) ++ t) :=
      (insertSortedBy_perm cmp x acc).append_right t
    refine h1.trans ?_
    simpa using (@List.perm_middle _ x acc t).symm

lemma insertSortedBy_sublist (cmp : α → α → Ordering) (x : α) (l : List α) :
    List.Sublist l (insertSortedBy cmp x l) := by
  induction l with
  | nil => simp
  | cons h t ih =>
    unfold insertSortedBy
    by_cases hc : cmp h x = .gt ∧ ∀ y ∈ t, cmp y x = .gt
    · rw [if_pos hc]
      exact List.sublist_cons_self x (h :: t)
    · rw [if_neg hc]
      exact List.Sublist.cons₂ h ih

lemma self_mem_insertSortedBy (cmp : α → α → Ordering) (x : α) (l : List α) :
    x ∈ insertSortedBy cmp x l :=
  (insertSortedBy_perm cmp x l).mem_iff.mpr (List.mem_cons_self x l)

lemma insertSortedBy_cases (cmp : α → α → Ordering) (x : α) (l : List α) :
    ((∀ y ∈ l, cmp y x = .gt) ∧ insertSortedBy cmp x l = x :: l)
    ∨ (insertSortedBy cmp x l).head? = l.head? := by
  cases l with
  | nil =>
    left
    constructor
    · intro y hy
      cases hy
    · rfl
  | cons h t =>
    unfold insertSortedBy
    by_cases hc : cmp h x = .gt ∧ ∀ y ∈ t, cmp y x = .gt
    · rw [if_pos hc]
      left
      refine ⟨?_, rfl⟩
      intro y hy
      rcases List.mem_cons.mp hy with rfl | hy2
      · exact hc.1
      · exact hc.2 y hy2
    · rw [if_neg hc]
      right
      rfl

lemma chain_insertSortedBy {x : Provider} {l : List Provider}
    (hl : l.Chain' proxyLe) :
    (insertSortedBy cmpProvider x l).Chain' proxyLe := by
  induction l with
  | nil => simp [insertSortedBy]
  | cons h t ih =>
    obtain ⟨hhd, htc⟩ := List.chain'_cons'.mp hl
    unfold insertSortedBy
    by_cases hc : cmpProvider h x = .gt ∧ ∀ y ∈ t, cmpProvider y x = .gt
    · rw [if_pos hc]
      refine List.chain'_cons'.mpr ⟨?_, hl⟩
      intro y hy
      have hyx : h = y := by simpa using hy
      rw [← hyx]
      exact cmpProvider_gt_le hc.1
    · rw [if_neg hc]
      refine List.chain'_cons'.mpr ⟨?_, ih htc⟩
      intro y hy
      rcases insertSortedBy_cases cmpProvider x t with ⟨hall, heq⟩ | hhead
      · rw [heq] at hy
        have hyx : x = y := by simpa using hy
        rw [← hyx]
        intro hgt
        exact hc ⟨hgt, hall⟩
      · rw [hhead] at hy
        exact hhd y hy

lemma sortProviders_chain (l : List Provider) :
    (sortProviders l).Chain' proxyLe := by
  unfold sortProviders sortByOrd
  suffices hgen : ∀ acc : List Provider, acc.Chain' proxyLe →
      (l.foldl (fun acc x => insertSortedBy cmpProvider x acc) acc).Chain' proxyLe by
    exact hgen [] List.chain'_nil
  induction l with
  | nil => intro acc hacc; simpa using hacc
  | cons x t ih =>
    intro acc hacc
    simp only [List.foldl_cons]
    exact ih _ (chain_insertSortedBy hacc)

lemma eq_insert_after {x a : Provider} {s : List Provider}
    (ha : a ∈ s) (heq : cmpProvider a x = .eq) :
    List.Sublist [a, x] (insertSortedBy cmpProvider x s) := by
  induction s with
  | nil => cases ha
  | cons h t ih =>
    unfold insertSortedBy
    by_cases hc : cmpProvider h x = .gt ∧ ∀ y ∈ t, cmpProvider y x = .gt
    · exfalso
      rcases List.mem_cons.mp ha with rfl | hmem
      · have h1 := hc.1
        rw [heq] at h1
        cases h1
      · have h1 := hc.2 a hmem
        rw [heq] at h1
        cases h1
    · rw [if_neg hc]
      rcases List.mem_cons.mp ha with rfl | hmem
      · exact List.Sublist.cons₂ a
          (List.singleton_sublist.mpr (self_mem_insertSortedBy cmpProvider x t))
      · exact List.Sublist.cons h (ih hmem)

lemma sublist_pair_append {a b x : α} {t : List α}
    (h : List.Sublist [a, b] (t ++ [x])) :
    List.Sublist [a, b] t ∨ (a ∈ t ∧ b = x) := by
  rw [List.sublist_append_iff] at h
  obtain ⟨s1, s2, hsplit, h1, h2⟩ := h
  rcases s1 with _ | ⟨c, s1'⟩
  · exfalso
    simp only [List.nil_append] at hsplit
    rw [← hsplit] at h2
    have := h2.length_le
    simp at this
  · rcases s1' with _ | ⟨d, s1''⟩
    · simp only [List.cons_append, List.singleton_append] at hsplit
      injection hsplit with hac htail
      rcases s2 with _ | ⟨e, s2'⟩
      · simp at htail
      · injection htail with hbe h2tail
        have hs2' : s2' = [] := by
          cases s2' with
          | nil => rfl
          | cons f s2'' => simp at h2tail
        subst hs2'
        right
        constructor
        · rw [hac]
          exact List.singleton_sublist.mp h1
        · rw [hbe]
          have := List.singleton_sublist.mp h2
          simpa using this
    · rcases s2 with _ | ⟨e, s2'⟩
      · simp only [List.append_nil] at hsplit
        left
        rw [hsplit]
        exact h1
      · exfalso
        have hlen := congrArg List.length hsplit
        simp [List.length_append] at hlen

lemma sortProviders_append_singleton (t : List Provider) (x : Provider) :
    sortProviders (t ++ [x]) = insertSortedBy cmpProvider x (sortProviders t) := by
  unfold sortProviders sortByOrd
  rw [List.foldl_append]
  rfl

lemma cmpEq_stable {a b : Provider} (heq : cmpProvider a b = .eq) {l : List Provider}
    (hsub : List.Sublist [a, b] l) : List.Sublist [a, b] (sortProviders l) := by
  induction l using List.reverseRecOn with
  | nil => simp at hsub
  | append_singleton t x ih =>
    rw [sortProviders_append_singleton]
    rcases sublist_pair_append hsub with hcase | ⟨hmem, rfl⟩
    · exact (ih hcase).trans (insertSortedBy_sublist cmpProvider x (sortProviders t))
    · have hamem : a ∈ sortProviders t :=
        (sortByOrd_perm cmpProvider t).mem_iff.mpr hmem
      exact eq_insert_after hamem heq

lemma proxyLe_spec {a b : Provider} (h : proxyLe a b) :
    (a.sort_index = none → b.sort_index = none)
    ∧ (∀ ia ib, a.sort_index = some ia → b.sort_index = some ib → ia ≤ ib)
    ∧ (a.sort_index = none → b.sort_index = none →
        ∀ ta tb, a.created_at = some ta → b.created_at = some tb → ta ≤ tb) := by
  unfold proxyLe cmpProvider at h
  refine ⟨?_, ?_, ?_⟩
  · intro ha
    rcases hb : b.sort_index with _ | ib
    · rfl
    · exfalso
      simp [ha, hb] at h
  · intro ia ib ha hb
    simp only [ha, hb] at h
    exact compare_le_iff_le.mp h
  · intro ha hb ta tb hta htb
    simp only [ha, hb, hta, htb] at h
    exact compare_le_iff_le.mp h

/-- The sort-key order of the amended claim: present `sort_index` before
absent, ascending among present. -/
def siOrder (a b : Provider) : Prop :=
  (a.sort_index = none → b.sort_index = none)
  ∧ (∀ ia ib, a.sort_index = some ia → b.sort_index = some ib → ia ≤ ib)

lemma siOrder_trans : ∀ a b c : Provider, siOrder a b → siOrder b c → siOrder a c := by
  intro a b c ⟨h1, h2⟩ ⟨h3, h4⟩
  constructor
  · intro ha
    exact h3 (h1 ha)
  · intro ia ic hia hic
    rcases hb : b.sort_index with _ | ib
    · have := h3 hb
      rw [hic] at this
      cases this
    · have hab := h2 ia ib hia hb
      have hbc := h4 ib ic hb hic
      omega

lemma sortProviders_pairwise_si (l : List Provider) :
    (sortProviders l).Pairwise siOrder := by
  have hch : (sortProviders l).Chain' siOrder :=
    (sortProviders_chain l).imp
      (fun a b h => ⟨(proxyLe_spec h).1, (proxyLe_spec h).2.1⟩)
  exact (@List.chain'_iff_pairwise _ _ ⟨siOrder_trans⟩ _).mp hch

/-- Provider with the later creation time but listed first
(counterexample input for C4). -/
def c4ProviderA : Provider :=
  { id := "a", name := "a", settings_config := .null,
    created_at := some 100, sort_index := some 1 }

/-- Provider with the earlier creation time, equal `sort_index`,
listed second. -/
def c4ProviderB : Provider :=
  { id := "b", name := "b", settings_config := .null,
    created_at := some 50, sort_index := some 1 }

/-- Provider without `sort_index`, created later, listed first
(second counterexample input for C4). -/
def c4ProviderZ : Provider :=
  { id := "z", name := "z", settings_config := .null,
    created_at := some 2, sort_index := none }

/-- Provider without `sort_index` and without `created_at`, listed
between the two dated ones. -/
def c4ProviderN : Provider :=
  { id := "n", name := "n", settings_config := .null,
    created_at := none, sort_index := none }

/-- Provider without `sort_index`, created earlier, listed last. -/
def c4ProviderY : Provider :=
  { id := "y", name := "y", settings_config := .null,
    created_at := some 1, sort_index := none }

/-- C4 counterexample, two instances.  First: two providers with the
same `sortIndex` are left in input order even though the second has the
earlier `createdAt`, because the comparator only consults `createdAt`
when both `sortIndex` are absent.  Second: among providers all lacking
`sortIndex`, an undated provider compares Equal to everything, so the
sort (which never moves an element past an Equal one) keeps
`createdAt 2, none, createdAt 1` in input order — the claim's tie order
("among equal or absent sort keys the earlier `createdAt` precedes")
fails on both sorted outputs. -/
theorem c4_sort_counterexample :
    (sortProviders [c4ProviderA, c4ProviderB] = [c4ProviderA, c4ProviderB]
      ∧ c4ProviderA.sort_index = c4ProviderB.sort_index
      ∧ c4ProviderA.created_at = some 100
      ∧ c4ProviderB.created_at = some 50
      ∧ ¬ (sortProviders [c4ProviderA, c4ProviderB]).Pairwise specClaimTieOrder)
    ∧ (sortProviders [c4ProviderZ, c4ProviderN, c4ProviderY]
        = [c4ProviderZ, c4ProviderN, c4ProviderY]
      ∧ c4ProviderZ.sort_index = none ∧ c4ProviderY.sort_index = none
      ∧ c4ProviderZ.created_at = some 2
      ∧ c4ProviderY.created_at = some 1
      ∧ ¬ (sortProviders [c4ProviderZ, c4ProviderN, c4ProviderY]).Pairwise
            specClaimTieOrder) := by
  constructor
  · refine ⟨rfl, rfl, rfl, rfl, ?_⟩
    intro hpair
    rw [show sortProviders [c4ProviderA, c4ProviderB] = [c4ProviderA, c4ProviderB]
      from rfl] at hpair
    have h := (List.pairwise_cons.mp hpair).1 c4ProviderB (List.mem_singleton.mpr rfl)
    have h2 := h (Or.inl rfl) 100 50 rfl rfl
    omega
  · refine ⟨rfl, rfl, rfl, rfl, rfl, ?_⟩
    intro hpair
    rw [show sortProviders [c4ProviderZ, c4ProviderN, c4ProviderY]
      = [c4ProviderZ, c4ProviderN, c4ProviderY] from rfl] at hpair
    have h := (List.pairwise_cons.mp hpair).1 c4ProviderY
      (List.mem_cons_of_mem _ (List.mem_singleton.mpr rfl))
    have h2 := h (Or.inr ⟨rfl, rfl⟩) 2 1 rfl rfl
    omega

/-- C4 (amended): the router's ordering is a permutation of the input in
which every provider with a `sortIndex` precedes every one without and
providers with `sortIndex` are ascending by it; between *consecutive*
providers both lacking `sortIndex` and both dated, the earlier
`createdAt` comes first (not between arbitrary ones: an undated provider
between two dated ones compares Equal to both and blocks the ordering,
as the counterexample's second instance shows); and any two providers
the comparator ties — equal present `sortIndex`, or both absent with
equal or missing `createdAt` — keep their input order (stability).
`createdAt` is never consulted between two providers that both carry a
`sortIndex`. -/
theorem c4_sort_order_amended (l : List Provider) :
    List.Perm (sortProviders l) l
    ∧ (sortProviders l).Pairwise siOrder
    ∧ (sortProviders l).Chain' (fun a b =>
        a.sort_index = none → b.sort_index = none →
        ∀ ta tb, a.created_at = some ta → b.created_at = some tb → ta ≤ tb)
    ∧ ∀ a b, cmpProvider a b = .eq → List.Sublist [a, b] l →
        List.Sublist [a, b] (sortProviders l) := by
  refine ⟨sortByOrd_perm cmpProvider l, sortProviders_pairwise_si l, ?_, ?_⟩
  · exact (sortProviders_chain l).imp (fun a b h => (proxyLe_spec h).2.2)
  · intro a b heq hsub
    exact cmpEq_stable heq hsub

/-- Witness for C4 (amended): an equal-`sortIndex` tie kept in input
order on a concrete two-element list. -/
theorem c4_sort_order_amended_witness :
    List.Sublist [c4ProviderA, c4ProviderB] (sortProviders [c4ProviderA, c4ProviderB]) :=
  (c4_sort_order_amended [c4ProviderA, c4ProviderB]).2.2.2 c4ProviderA c4ProviderB
    (by rfl) (List.Sublist.refl _)

/-! ## C2: one relayed response, success only on status 200 -/

lemma attemptLoopAux_spec (u : Nat → Nat → Outcome) (p : Nat) :
    ∀ left i,
      ((attemptLoopAux u p i left).2 = none →
        ∀ e ∈ (attemptLoopAux u p i left).1, is200Event e = false)
      ∧ ∀ r, (attemptLoopAux u p i left).2 = some r →
          ∃ es j b, outcomeSuccess (u p j) = some b
            ∧ (attemptLoopAux u p i left).1 = es ++ [Event.attempt p j (u p j)]
            ∧ (∀ e ∈ es, is200Event e = false)
            ∧ r = (if b then HandlerResult.relayed p 200 else HandlerResult.httpErr 502) := by
  intro left
  induction left with
  | zero =>
    intro i
    cases ho : outcomeSuccess (u p i) with
    | none =>
      constructor
      · intro _ e he
        simp only [attemptLoopAux, ho] at he
        rw [List.mem_singleton.mp he]
        simp [is200Event, ho]
      · intro r hr
        simp only [attemptLoopAux, ho] at hr
        cases hr
    | some b =>
      constructor
      · intro hnone
        simp only [attemptLoopAux, ho] at hnone
        cases hnone
      · intro r hr
        simp only [attemptLoopAux, ho] at hr
        refine ⟨[], i, b, ho, ?_, ?_, ?_⟩
        · simp [attemptLoopAux, ho]
        · intro e he
          cases he
        · injection hr with hr2
          exact hr2.symm
  | succ n ih =>
    intro i
    cases ho : outcomeSuccess (u p i) with
    | some b =>
      constructor
      · intro hnone
        simp only [attemptLoopAux, ho] at hnone
        cases hnone
      · intro r hr
        simp only [attemptLoopAux, ho] at hr
        refine ⟨[], i, b, ho, ?_, ?_, ?_⟩
        · simp [attemptLoopAux, ho]
        · intro e he
          cases he
        · injection hr with hr2
          exact hr2.symm
    | none =>
      have ihi := ih (i + 1)
      constructor
      · intro hnone e he
        simp only [attemptLoopAux, ho] at hnone he
        rcases List.mem_cons.mp he with rfl | he2
        · simp [is200Event, ho]
        · rcases List.mem_cons.mp he2 with rfl | he3
          · simp [is200Event]
          · exact ihi.1 hnone e he3
      · intro r hr
        simp only [attemptLoopAux, ho] at hr
        obtain ⟨es, j, b, hb, hes, hall, hres⟩ := ihi.2 r hr
        refine ⟨Event.attempt p i (u p i) :: Event.sleep 100 :: es, j, b, hb, ?_, ?_, hres⟩
        · simp only [attemptLoopAux, ho]
          rw [hes]
          simp
        · intro e he
          rcases List.mem_cons.mp he with rfl | he2
          · simp [is200Event, ho]
          · rcases List.mem_cons.mp he2 with rfl | he3
            · simp [is200Event]
            · exact hall e he3

lemma providerLoop_spec (u : Nat → Nat → Outcome) (t : AppType) (rc : Nat)
    (vu : String → Bool) (path : String) :
    ∀ l : List (Nat × Provider),
      ((providerLoop u t rc vu path l).2 = none →
        ∀ e ∈ (providerLoop u t rc vu path l).1, is200Event e = false)
      ∧ ∀ r, (providerLoop u t rc vu path l).2 = some r →
          ∃ es pi j b, outcomeSuccess (u pi j) = some b
            ∧ (providerLoop u t rc vu path l).1 = es ++ [Event.attempt pi j (u pi j)]
            ∧ (∀ e ∈ es, is200Event e = false)
            ∧ r = (if b then HandlerResult.relayed pi 200
                   else HandlerResult.httpErr 502) := by
  intro l
  induction l with
  | nil =>
    constructor
    · intro _ e he
      simp [providerLoop] at he
    · intro r hr
      simp [providerLoop] at hr
  | cons ip rest ih =>
    cases hex : extract_provider_credentials ip.2 t with
    | error e0 =>
      simp only [providerLoop, hex]
      exact ih
    | ok kv =>
      by_cases hvu : vu (trimTrailingSlash kv.2 ++ path) = true
      · rcases hal : attemptLoop u ip.1 rc with ⟨evs, ores⟩
        unfold attemptLoop at hal
        have hA := attemptLoopAux_spec u ip.1 rc 0
        cases ores with
        | some r0 =>
          constructor
          · intro hnone
            simp only [providerLoop, hex, if_pos hvu, attemptLoop, hal] at hnone
            cases hnone
          · intro r hr
            simp only [providerLoop, hex, if_pos hvu, attemptLoop, hal] at hr ⊢
            obtain ⟨es, j, b, hb, hes, hall, hres⟩ := hA.2 r0 (by rw [hal])
            injection hr with hr2
            refine ⟨es, ip.1, j, b, hb, ?_, hall, ?_⟩
            · rw [hal] at hes
              exact hes
            · rw [← hr2]
              exact hres
        | none =>
          constructor
          · intro hnone e he
            simp only [providerLoop, hex, if_pos hvu, attemptLoop, hal] at hnone he
            rcases List.mem_append.mp he with he1 | he2
            · have h1 := hA.1 (by rw [hal])
              rw [hal] at h1
              exact h1 e he1
            · exact ih.1 hnone e he2
          · intro r hr
            simp only [providerLoop, hex, if_pos hvu, attemptLoop, hal] at hr ⊢
            obtain ⟨es, pi, j, b, hb, hes, hall, hres⟩ := ih.2 r hr
            refine ⟨evs ++ es, pi, j, b, hb, ?_, ?_, hres⟩
            · rw [hes, List.append_assoc]
            · intro e he
              rcases List.mem_append.mp he with he1 | he2
              · have h1 := hA.1 (by rw [hal])
                rw [hal] at h1
                exact h1 e he1
              · exact hall e he2
      · simp only [providerLoop, hex, if_neg hvu]
        exact ih

/-- C2: for every request, a relayed result carries status exactly 200
and is the last event of the trace (no attempt follows it, against any
provider); a 502 likewise ends the trace at its 200-status attempt; and
every other outcome means no attempt ever returned status 200 — non-200
statuses and transport errors are only ever attempt failures. -/
theorem c2_single_success_relay (cfg : AppConfig) (ua : Option String)
    (bodyOk : Bool) (rc : Nat) (vu : String → Bool) (path : String)
    (u : Nat → Nat → Outcome) :
    (∀ pi s, (proxyHandler cfg ua bodyOk rc vu path u).1 = .relayed pi s →
      s = 200 ∧ ∃ es j, (proxyHandler cfg ua bodyOk rc vu path u).2
          = es ++ [Event.attempt pi j (u pi j)]
        ∧ outcomeSuccess (u pi j) = some true
        ∧ ∀ e ∈ es, is200Event e = false)
    ∧ ((proxyHandler cfg ua bodyOk rc vu path u).1 = .httpErr 502 →
        ∃ es pi j, (proxyHandler cfg ua bodyOk rc vu path u).2
            = es ++ [Event.attempt pi j (u pi j)]
          ∧ outcomeSuccess (u pi j) = some false
          ∧ ∀ e ∈ es, is200Event e = false)
    ∧ (((proxyHandler cfg ua bodyOk rc vu path u).1 = .httpErr 400
        ∨ (proxyHandler cfg ua bodyOk rc vu path u).1 = .httpErr 503
        ∨ (proxyHandler cfg ua bodyOk rc vu path u).1 = .httpErr 500) →
        ∀ e ∈ (proxyHandler cfg ua bodyOk rc vu path u).2, is200Event e = false) := by
  by_cases hbody : bodyOk = false
  · refine ⟨?_, ?_, ?_⟩
    · intro pi s hr
      simp only [proxyHandler, if_pos hbody] at hr
      cases hr
    · intro hr
      simp only [proxyHandler, if_pos hbody] at hr
      injection hr with h2
      omega
    · intro _ e he
      simp only [proxyHandler, if_pos hbody] at he
      cases he
  · by_cases hempty : (get_enabled_proxy_providers cfg
        (detect_app_type_from_user_agent ua)).isEmpty = true
    · refine ⟨?_, ?_, ?_⟩
      · intro pi s hr
        simp only [proxyHandler, if_neg hbody, if_pos hempty] at hr
        cases hr
      · intro hr
        simp only [proxyHandler, if_neg hbody, if_pos hempty] at hr
        injection hr with h2
        omega
      · intro _ e he
        simp only [proxyHandler, if_neg hbody, if_pos hempty] at he
        cases he
    · have hP := providerLoop_spec u (detect_app_type_from_user_agent ua) rc vu path
        (get_enabled_proxy_providers cfg (detect_app_type_from_user_agent ua)).enum
      rcases hpl : providerLoop u (detect_app_type_from_user_agent ua) rc vu path
        (get_enabled_proxy_providers cfg (detect_app_type_from_user_agent ua)).enum
        with ⟨evs, ores⟩
      cases ores with
      | none =>
        refine ⟨?_, ?_, ?_⟩
        · intro pi s hr
          simp only [proxyHandler, if_neg hbody, if_neg hempty, hpl] at hr
          cases hr
        · intro hr
          simp only [proxyHandler, if_neg hbody, if_neg hempty, hpl] at hr
          injection hr with h2
          omega
        · intro _ e he
          simp only [proxyHandler, if_neg hbody, if_neg hempty, hpl] at he
          have h1 := hP.1 (by rw [hpl])
          rw [hpl] at h1
          exact h1 e he
      | some r0 =>
        obtain ⟨es, pi0, j0, b0, hb0, hes0, hall0, hres0⟩ := hP.2 r0 (by rw [hpl])
        rw [hpl] at hes0
        refine ⟨?_, ?_, ?_⟩
        · intro pi s hr
          simp only [proxyHandler, if_neg hbody, if_neg hempty, hpl] at hr ⊢
          rw [hr] at hres0
          cases b0 with
          | false => cases hres0
          | true =>
            injection hres0 with hpi hs
            subst hpi
            subst hs
            exact ⟨rfl, es, j0, hes0, hb0, hall0⟩
        · intro hr
          simp only [proxyHandler, if_neg hbody, if_neg hempty, hpl] at hr ⊢
          rw [hr] at hres0
          cases b0 with
          | true => cases hres0
          | false =>
            exact ⟨es, pi0, j0, hes0, hb0, hall0⟩
        · intro hr e he
          simp only [proxyHandler, if_neg hbody, if_neg hempty, hpl] at hr he
          exfalso
          cases b0 with
          | true =>
            rw [hres0] at hr
            rcases hr with h | h | h <;> cases h
          | false =>
            rw [hres0] at hr
            rcases hr with h | h | h <;> (injection h with h2; omega)

/-- A proxy-enabled Claude provider with valid credentials, used by
concrete witnesses. -/
def sampleClaudeProvider : Provider :=
  { id := "cp", name := "claude-primary",
    settings_config := .obj [("env", .obj
      [("ANTHROPIC_AUTH_TOKEN", .str "k1"),
       ("ANTHROPIC_BASE_URL", .str "https://up.example")])],
    sort_index := some 1,
    proxy_enabled := some true }

/-- A proxy-enabled provider whose credential extraction fails (no `env`
object), used by concrete witnesses. -/
def sampleBrokenProvider : Provider :=
  { id := "bp", name := "broken",
    settings_config := .null,
    sort_index := some 0,
    proxy_enabled := some true }

/-- A registry with one broken and one valid Claude provider. -/
def sampleConfig : AppConfig :=
  { claude := { providers := [("cp", sampleClaudeProvider), ("bp", sampleBrokenProvider)],
                current := "cp" },
    codex := { providers := [], current := "" } }

/-- Witness for C2: a first-attempt 200 is relayed and is the only and
final event of the trace. -/
theorem c2_single_success_relay_witness :
    (200 : Nat) = 200 ∧ ∃ es j,
      (proxyHandler sampleConfig (some "claude-cli/1.0") true 0 (fun _ => true)
          "/v1/messages" (fun _ _ => Outcome.resp 200 true)).2
        = es ++ [Event.attempt 1 j (Outcome.resp 200 true)]
      ∧ outcomeSuccess (Outcome.resp 200 true) = some true
      ∧ ∀ e ∈ es, is200Event e = false :=
  (c2_single_success_relay sampleConfig (some "claude-cli/1.0") true 0 (fun _ => true)
    "/v1/messages" (fun _ _ => Outcome.resp 200 true)).1 1 200 (by rfl)

/-! ## C3: exactly `r+1` attempts per eligible provider, 100 ms apart -/

/-- Follows the claim's words: under total failure, each provider with
extractable credentials (and a buildable target URL) contributes exactly
`rc + 1` attempts with a 100 ms sleep between consecutive ones; a
provider whose extraction fails contributes nothing. -/
def expectedAllFailTrace (u : Nat → Nat → Outcome) (t : AppType) (rc : Nat)
    (vu : String → Bool) (path : String) (l : List (Nat × Provider)) : List Event :=
  l.flatMap (fun ip =>
    match extract_provider_credentials ip.2 t with
    | .error _ => []
    | .ok kv =>
      if vu (trimTrailingSlash kv.2 ++ path) then
        (List.range' 0 rc).flatMap
          (fun j => [Event.attempt ip.1 j (u ip.1 j), Event.sleep 100])
          ++ [Event.attempt ip.1 rc (u ip.1 rc)]
      else [])

lemma attemptLoopAux_allfail (u : Nat → Nat → Outcome) (p : Nat)
    (hfail : ∀ j, outcomeSuccess (u p j) = none) :
    ∀ left i, attemptLoopAux u p i left
      = ((List.range' i left).flatMap
          (fun j => [Event.attempt p j (u p j), Event.sleep 100])
          ++ [Event.attempt p (i + left) (u p (i + left))], none) := by
  intro left
  induction left with
  | zero =>
    intro i
    simp [attemptLoopAux, hfail i, List.range']
  | succ n ih =>
    intro i
    have harith : i + (n + 1) = (i + 1) + n := by omega
    simp only [attemptLoopAux, hfail i, List.range', List.flatMap_cons, ih (i + 1),
      harith]
    simp

lemma providerLoop_allfail (u : Nat → Nat → Outcome) (t : AppType) (rc : Nat)
    (vu : String → Bool) (path : String)
    (hfail : ∀ pi j, outcomeSuccess (u pi j) = none) :
    ∀ l : List (Nat × Provider),
      providerLoop u t rc vu path l = (expectedAllFailTrace u t rc vu path l, none) := by
  intro l
  induction l with
  | nil => simp [providerLoop, expectedAllFailTrace]
  | cons ip rest ih =>
    cases hex : extract_provider_credentials ip.2 t with
    | error e0 =>
      simp only [providerLoop, expectedAllFailTrace, List.flatMap_cons, hex, ih]
      simp [expectedAllFailTrace]
    | ok kv =>
      by_cases hvu : vu (trimTrailingSlash kv.2 ++ path) = true
      · have hA := attemptLoopAux_allfail u ip.1 (hfail ip.1) rc 0
        simp only [providerLoop, hex, if_pos hvu, attemptLoop, hA, ih]
        simp only [expectedAllFailTrace, List.flatMap_cons, hex, if_pos hvu]
        simp
      · simp only [providerLoop, expectedAllFailTrace, List.flatMap_cons, hex,
          if_neg hvu, ih]
        simp [expectedAllFailTrace]

/-- C3: when the inbound body is readable, at least one provider is
eligible, and every upstream attempt fails (non-200 or transport error),
the handler returns 500 and its trace is exactly, per provider in order:
nothing when credential extraction fails, and otherwise `rc + 1`
attempts with a single 100 ms sleep between consecutive attempts (and no
sleep after the last). -/
theorem c3_retry_exhaustion (cfg : AppConfig) (ua : Option String) (rc : Nat)
    (vu : String → Bool) (path : String) (u : Nat → Nat → Outcome)
    (hfail : ∀ pi j, outcomeSuccess (u pi j) = none)
    (hne : (get_enabled_proxy_providers cfg
        (detect_app_type_from_user_agent ua)).isEmpty = false) :
    proxyHandler cfg ua true rc vu path u
      = (HandlerResult.httpErr 500,
         expectedAllFailTrace u (detect_app_type_from_user_agent ua) rc vu path
           (get_enabled_proxy_providers cfg
             (detect_app_type_from_user_agent ua)).enum) := by
  have hPL := providerLoop_allfail u (detect_app_type_from_user_agent ua) rc vu path hfail
    (get_enabled_proxy_providers cfg (detect_app_type_from_user_agent ua)).enum
  simp only [proxyHandler, hPL]
  rw [if_neg (by simp), if_neg (by simp [hne])]

/-- Witness for C3: one skipped provider and one eligible provider,
`retry_count = 1`, every attempt a transport error: exactly two attempts
separated by one 100 ms sleep, then 500. -/
theorem c3_retry_exhaustion_witness :
    proxyHandler sampleConfig (some "Claude-Code/2.0") true 1 (fun _ => true)
        "/v1/messages" (fun _ _ => Outcome.transportErr)
      = (HandlerResult.httpErr 500,
         expectedAllFailTrace (fun _ _ => Outcome.transportErr) AppType.Claude 1
           (fun _ => true) "/v1/messages"
           (get_enabled_proxy_providers sampleConfig AppType.Claude).enum) :=
  c3_retry_exhaustion sampleConfig (some "Claude-Code/2.0") 1 (fun _ => true)
    "/v1/messages" (fun _ _ => Outcome.transportErr) (fun _ _ => rfl) (by rfl)

/-! ## C7: transport-level status codes -/

/-- C7: the handler returns 400 exactly when the inbound body is
unreadable; 503 exactly when the body is readable but no provider is
proxy-enabled for the detected client kind; 500 exactly when providers
exist but no attempt ever produced a 200; and 502 only when a 200
response's body could not be read (the trace then ends at that 200). -/
theorem c7_status_codes (cfg : AppConfig) (ua : Option String) (bodyOk : Bool)
    (rc : Nat) (vu : String → Bool) (path : String) (u : Nat → Nat → Outcome) :
    ((proxyHandler cfg ua bodyOk rc vu path u).1 = .httpErr 400 ↔ bodyOk = false)
    ∧ ((proxyHandler cfg ua bodyOk rc vu path u).1 = .httpErr 503 ↔
        (bodyOk = true ∧ (get_enabled_proxy_providers cfg
          (detect_app_type_from_user_agent ua)).isEmpty = true))
    ∧ ((proxyHandler cfg ua bodyOk rc vu path u).1 = .httpErr 500 →
        bodyOk = true
        ∧ (get_enabled_proxy_providers cfg
            (detect_app_type_from_user_agent ua)).isEmpty = false
        ∧ ∀ e ∈ (proxyHandler cfg ua bodyOk rc vu path u).2, is200Event e = false)
    ∧ (bodyOk = true →
        (get_enabled_proxy_providers cfg
          (detect_app_type_from_user_agent ua)).isEmpty = false →
        (∀ e ∈ (proxyHandler cfg ua bodyOk rc vu path u).2, is200Event e = false) →
        (proxyHandler cfg ua bodyOk rc vu path u).1 = .httpErr 500)
    ∧ ((proxyHandler cfg ua bodyOk rc vu path u).1 = .httpErr 502 →
        ∃ es pi j, (proxyHandler cfg ua bodyOk rc vu path u).2
            = es ++ [Event.attempt pi j (u pi j)]
          ∧ outcomeSuccess (u pi j) = some false) := by
  by_cases hbody : bodyOk = false
  · refine ⟨?_, ?_, ?_, ?_, ?_⟩
    · simp [proxyHandler, if_pos hbody, hbody]
    · constructor
      · intro hr
        simp only [proxyHandler, if_pos hbody] at hr
        injection hr with h2
        omega
      · intro ⟨hbt, _⟩
        rw [hbt] at hbody
        cases hbody
    · intro hr
      simp only [proxyHandler, if_pos hbody] at hr
      injection hr with h2
      omega
    · intro hbt
      rw [hbt] at hbody
      cases hbody
    · intro hr
      simp only [proxyHandler, if_pos hbody] at hr
      injection hr with h2
      omega
  · have hbt : bodyOk = true := by
      cases bodyOk
      · exact absurd rfl hbody
      · rfl
    by_cases hempty : (get_enabled_proxy_providers cfg
        (detect_app_type_from_user_agent ua)).isEmpty = true
    · refine ⟨?_, ?_, ?_, ?_, ?_⟩
      · constructor
        · intro hr
          simp only [proxyHandler, if_neg hbody, if_pos hempty] at hr
          injection hr with h2
          omega
        · intro hb
          exact absurd hb hbody
      · simp [proxyHandler, if_neg hbody, if_pos hempty, hbt, hempty]
      · intro hr
        simp only [proxyHandler, if_neg hbody, if_pos hempty] at hr
        injection hr with h2
        omega
      · intro _ hne
        rw [hempty] at hne
        cases hne
      · intro hr
        simp only [proxyHandler, if_neg hbody, if_pos hempty] at hr
        injection hr with h2
        omega
    · have hne : (get_enabled_proxy_providers cfg
          (detect_app_type_from_user_agent ua)).isEmpty = false := by
        cases hE : (get_enabled_proxy_providers cfg
            (detect_app_type_from_user_agent ua)).isEmpty
        · rfl
        · exact absurd hE hempty
      have hP := providerLoop_spec u (detect_app_type_from_user_agent ua) rc vu path
        (get_enabled_proxy_providers cfg (detect_app_type_from_user_agent ua)).enum
      rcases hpl : providerLoop u (detect_app_type_from_user_agent ua) rc vu path
        (get_enabled_proxy_providers cfg (detect_app_type_from_user_agent ua)).enum
        with ⟨evs, ores⟩
      cases ores with
      | none =>
        have hall := hP.1 (by rw [hpl])
        rw [hpl] at hall
        refine ⟨?_, ?_, ?_, ?_, ?_⟩
        · constructor
          · intro hr
            simp only [proxyHandler, if_neg hbody, if_neg hempty, hpl] at hr
            injection hr with h2
            omega
          · intro hb
            exact absurd hb hbody
        · constructor
          · intro hr
            simp only [proxyHandler, if_neg hbody, if_neg hempty, hpl] at hr
            injection hr with h2
            omega
          · intro ⟨_, hE⟩
            rw [hE] at hne
            cases hne
        · intro _
          refine ⟨hbt, hne, ?_⟩
          intro e he
          simp only [proxyHandler, if_neg hbody, if_neg hempty, hpl] at he
          exact hall e he
        · intro _ _ _
          simp only [proxyHandler, if_neg hbody, if_neg hempty, hpl]
        · intro hr
          simp only [proxyHandler, if_neg hbody, if_neg hempty, hpl] at hr
          injection hr with h2
          omega
      | some r0 =>
        obtain ⟨es, pi0, j0, b0, hb0, hes0, hall0, hres0⟩ := hP.2 r0 (by rw [hpl])
        rw [hpl] at hes0
        have hesv : evs = es ++ [Event.attempt pi0 j0 (u pi0 j0)] := hes0
        have hlast200 : is200Event (Event.attempt pi0 j0 (u pi0 j0)) = true := by
          simp [is200Event, hb0]
        refine ⟨?_, ?_, ?_, ?_, ?_⟩
        · constructor
          · intro hr
            simp only [proxyHandler, if_neg hbody, if_neg hempty, hpl] at hr
            rw [hr] at hres0
            cases b0 with
            | true => cases hres0
            | false =>
              injection hres0 with h2
              omega
          · intro hb
            exact absurd hb hbody
        · constructor
          · intro hr
            simp only [proxyHandler, if_neg hbody, if_neg hempty, hpl] at hr
            rw [hr] at hres0
            cases b0 with
            | true => cases hres0
            | false =>
              injection hres0 with h2
              omega
          · intro ⟨_, hE⟩
            rw [hE] at hne
            cases hne
        · intro hr
          simp only [proxyHandler, if_neg hbody, if_neg hempty, hpl] at hr
          rw [hr] at hres0
          cases b0 with
          | true => cases hres0
          | false =>
            injection hres0 with h2
            omega
        · intro _ _ hnone
          exfalso
          have hmem : Event.attempt pi0 j0 (u pi0 j0)
              ∈ (proxyHandler cfg ua bodyOk rc vu path u).2 := by
            simp only [proxyHandler, if_neg hbody, if_neg hempty, hpl]
            rw [hesv]
            exact List.mem_append_right _ (List.mem_singleton.mpr rfl)
          have := hnone _ hmem
          rw [hlast200] at this
          cases this
        · intro hr
          simp only [proxyHandler, if_neg hbody, if_neg hempty, hpl] at hr ⊢
          rw [hr] at hres0
          cases b0 with
          | true => cases hres0
          | false => exact ⟨es, pi0, j0, hes0, hb0⟩

/-- An empty registry for the C7 witness. -/
def emptyConfig : AppConfig :=
  { claude := { providers := [], current := "" },
    codex := { providers := [], current := "" } }

/-- Witness for C7: no proxy-enabled provider for the detected kind
maps to 503. -/
theorem c7_status_codes_witness :
    (proxyHandler emptyConfig none true 0 (fun _ => true) "/"
        (fun _ _ => Outcome.transportErr)).1 = .httpErr 503 :=
  (c7_status_codes emptyConfig none true 0 (fun _ => true) "/"
    (fun _ _ => Outcome.transportErr)).2.1.mpr ⟨rfl, rfl⟩

/-! ## C9: Proxy-then-Direct restores the current provider's credentials -/

/-- C9: per client kind.  For any registry state, if the Claude registry
has a `current` provider selected and present, switching to Proxy mode
and then back to Direct leaves the Claude live config byte-for-byte at
that provider's `settingsConfig` — whatever the Codex registry holds;
and if the Codex registry has a `current` provider selected and present
(with an `auth` value, without which nothing is derivable and the switch
errors), the Codex live config ends at exactly that provider's `auth`
value and `config` text — whatever the Claude registry holds. -/
theorem c9_mode_roundtrip (cfg : AppConfig) (st : LiveState)
    (claudeCommon : Option JValue) (codexCommon : Option String) :
    (∀ p, cfg.claude.current ≠ "" →
      lookupProvider cfg.claude.providers cfg.claude.current = some p →
      (switch_to_write_mode cfg
          (switch_to_proxy_mode claudeCommon codexCommon st)).2.2.claude_settings
        = p.settings_config)
    ∧ ∀ q a, cfg.codex.current ≠ "" →
        lookupProvider cfg.codex.providers cfg.codex.current = some q →
        q.settings_config.getKey "auth" = some a →
        (switch_to_write_mode cfg
            (switch_to_proxy_mode claudeCommon codexCommon st)).1 = .ok ()
        ∧ (switch_to_write_mode cfg
            (switch_to_proxy_mode claudeCommon codexCommon st)).2.2.codex_auth = a
        ∧ (switch_to_write_mode cfg
            (switch_to_proxy_mode claudeCommon codexCommon st)).2.2.codex_config_text
          = ((q.settings_config.getKey "config").bind JValue.asStr).getD "" := by
  constructor
  · intro p hc1 hc2
    unfold switch_to_write_mode
    rw [if_pos hc1, hc2]
    dsimp only
    by_cases hx : cfg.codex.current ≠ ""
    · rw [if_pos hx]
      cases hq : lookupProvider cfg.codex.providers cfg.codex.current with
      | none => rfl
      | some q =>
        dsimp only
        cases ha : q.settings_config.getKey "auth" with
        | none => rfl
        | some a => rfl
    · rw [if_neg hx]
      cases hhd : (sortProviderPairs cfg.codex.providers).head? with
      | none => rfl
      | some iq =>
        dsimp only
        cases ha : iq.2.settings_config.getKey "auth" with
        | none => rfl
        | some a => rfl
  · intro q a hx1 hx2 hauth
    unfold switch_to_write_mode
    dsimp only
    rw [if_pos hx1, hx2]
    dsimp only
    rw [hauth]
    exact ⟨rfl, rfl, rfl⟩

/-- Registry for the C9 witness: a current Claude provider and a current
Codex provider. -/
def c9Config : AppConfig :=
  { claude := { providers := [("cp", sampleClaudeProvider)], current := "cp" },
    codex := { providers := [("cx", c5SampleProvider)], current := "cx" } }

/-- An arbitrary initial live state for the C9 witness. -/
def c9InitState : LiveState :=
  { claude_settings := .null, codex_auth := .null, codex_config_text := "old" }

/-- Witness for C9 at the concrete registry, exercising both per-kind
parts of the theorem. -/
theorem c9_mode_roundtrip_witness :
    (switch_to_write_mode c9Config
        (switch_to_proxy_mode none none c9InitState)).2.2.claude_settings
      = sampleClaudeProvider.settings_config
    ∧ (switch_to_write_mode c9Config (switch_to_proxy_mode none none c9InitState)).1
      = .ok ()
    ∧ (switch_to_write_mode c9Config
        (switch_to_proxy_mode none none c9InitState)).2.2.codex_auth
      = JValue.obj [("OPENAI_API_KEY", JValue.str "ok-key")]
    ∧ (switch_to_write_mode c9Config
        (switch_to_proxy_mode none none c9InitState)).2.2.codex_config_text
      = ((c5SampleProvider.settings_config.getKey "config").bind JValue.asStr).getD "" :=
  ⟨(c9_mode_roundtrip c9Config c9InitState none none).1 sampleClaudeProvider
      (by decide) rfl,
   (c9_mode_roundtrip c9Config c9InitState none none).2 c5SampleProvider
      (JValue.obj [("OPENAI_API_KEY", JValue.str "ok-key")]) (by decide) rfl rfl⟩
